import Mathlib

/-!
Verification of the ImageAI design-editor core: the undo/redo history manager
(useHistory), the canvas selection event bridge (useCanvasEvents), the
autosave error path (useAutosave) and the ShapeTool presentational component.
All definitions are shallow embeddings of the TypeScript source; JavaScript
array semantics (negative slice bounds, out-of-range indexing yielding
undefined) are modelled explicitly over Lean lists with Int indices.
-/

namespace ImageAI

/-- JavaScript array indexing a[i]: undefined (none) when i is negative or
out of range. -/
def jsIndex {σ : Type} (l : List σ) (i : Int) : Option σ :=
  if i < 0 then none else l.get? i.toNat

/-- JavaScript a.slice(0, e): a negative end counts from the end of the
array, clamped at 0; a nonnegative end is clamped at the length. -/
def jsSliceTo {σ : Type} (l : List σ) (e : Int) : List σ :=
  if e < 0 then l.take ((l.length + e).toNat) else l.take e.toNat

/-- State of the useHistory hook: the history array and currentIndex.
currentIndex is an Int because the hook initialises it to -1. -/
structure HistoryState (σ : Type) where
  history : List σ
  currentIndex : Int

deriving instance DecidableEq for HistoryState
deriving instance Repr for HistoryState

/-- pushState from useHistory: newHistory = history.slice(0, currentIndex + 1)
with the new state pushed; currentIndex becomes newHistory.length - 1. -/
def pushState {σ : Type} (st : σ) (s : HistoryState σ) : HistoryState σ :=
  let newHistory := jsSliceTo s.history (s.currentIndex + 1) ++ [st]
  { history := newHistory, currentIndex := (newHistory.length : Int) - 1 }

/-- undo from useHistory: when currentIndex > 0, decrement currentIndex and
return history[currentIndex - 1]; otherwise return undefined (none) and
leave the state unchanged. First component is the returned value, second
the updated hook state. -/
def undo {σ : Type} (s : HistoryState σ) : Option σ × HistoryState σ :=
  if 0 < s.currentIndex then
    (jsIndex s.history (s.currentIndex - 1),
      { s with currentIndex := s.currentIndex - 1 })
  else
    (none, s)

/-- redo from useHistory: when currentIndex < history.length - 1, increment
currentIndex and return history[currentIndex + 1]; otherwise return
undefined (none) and leave the state unchanged. -/
def redo {σ : Type} (s : HistoryState σ) : Option σ × HistoryState σ :=
  if s.currentIndex < (s.history.length : Int) - 1 then
    (jsIndex s.history (s.currentIndex + 1),
      { s with currentIndex := s.currentIndex + 1 })
  else
    (none, s)

/-- The operations offered by the useHistory hook. -/
inductive HistoryOp (σ : Type) where
  | push (st : σ)
  | undoOp
  | redoOp

deriving instance DecidableEq for HistoryOp
deriving instance Repr for HistoryOp

/-- Effect of one hook operation on the hook state. -/
def applyOp {σ : Type} (s : HistoryState σ) : HistoryOp σ → HistoryState σ
  | .push st => pushState st s
  | .undoOp => (undo s).2
  | .redoOp => (redo s).2

/-- Initial hook state: useState([]) and useState(-1). -/
def initialState {σ : Type} : HistoryState σ :=
  { history := [], currentIndex := -1 }

/-- The state after a finite sequence of hook operations from the initial
state. -/
def applyOps {σ : Type} (ops : List (HistoryOp σ)) : HistoryState σ :=
  ops.foldl applyOp initialState

/-- A hook state the program can actually be in. -/
def Reachable {σ : Type} (s : HistoryState σ) : Prop :=
  ∃ ops : List (HistoryOp σ), applyOps ops = s

/-- The useHistory data invariant: -1 ≤ currentIndex ≤ history.length - 1,
and the index is nonnegative whenever the history array is nonempty. -/
def HistoryInv {σ : Type} (s : HistoryState σ) : Prop :=
  -1 ≤ s.currentIndex ∧ s.currentIndex ≤ (s.history.length : Int) - 1 ∧
    (s.history ≠ [] → 0 ≤ s.currentIndex)

/-- A JavaScript value that is either an array of objects or undefined:
the type of e.selected on fabric selection events. -/
inductive JsArrayVal (α : Type) where
  | undef
  | arr (xs : List α)

deriving instance DecidableEq for JsArrayVal
deriving instance Repr for JsArrayVal

/-- JavaScript v || []: arrays are truthy (even when empty), undefined is
falsy, so the result is v itself when v is an array and [] otherwise. -/
def jsOrEmptyArray {α : Type} (v : JsArrayVal α) : JsArrayVal α :=
  match v with
  | .undef => .arr []
  | .arr xs => .arr xs

/-- A fabric selection event payload: the selected field may be absent. -/
structure SelectionEvent (α : Type) where
  selected : JsArrayVal α

deriving instance DecidableEq for SelectionEvent
deriving instance Repr for SelectionEvent

/-- Observable calls the useCanvasEvents handlers make into the editor:
a call to setSelectedObjects with the JS value actually passed, or an
invocation of the optional clearSelectionCallBack. -/
inductive CanvasAction (α : Type) where
  | setSelectedObjects (objs : JsArrayVal α)
  | clearSelectionCallBackCall

deriving instance DecidableEq for CanvasAction
deriving instance Repr for CanvasAction

/-- Handler registered for selection:created: calls
setSelectedObjects(e.selected || []). -/
def onSelectionCreated {α : Type} (e : SelectionEvent α) : List (CanvasAction α) :=
  [.setSelectedObjects (jsOrEmptyArray e.selected)]

/-- Handler registered for selection:updated: calls
setSelectedObjects(e.selected || []). -/
def onSelectionUpdated {α : Type} (e : SelectionEvent α) : List (CanvasAction α) :=
  [.setSelectedObjects (jsOrEmptyArray e.selected)]

/-- Handler registered for selection:cleared: calls setSelectedObjects([])
and then invokes clearSelectionCallBack when it was provided
(clearSelectionCallBack?.()). -/
def onSelectionCleared {α : Type} (clearSelectionCallBack : Option Unit) :
    List (CanvasAction α) :=
  .setSelectedObjects (.arr []) ::
    (match clearSelectionCallBack with
      | some _ => [.clearSelectionCallBackCall]
      | none => [])

/-- The canvas events the hook subscribes to. -/
inductive CanvasEvent (α : Type) where
  | created (e : SelectionEvent α)
  | updated (e : SelectionEvent α)
  | cleared

deriving instance DecidableEq for CanvasEvent
deriving instance Repr for CanvasEvent

/-- Dispatch of a canvas event to the handler useCanvasEvents registered
for it. -/
def handleCanvasEvent {α : Type} (clearSelectionCallBack : Option Unit) :
    CanvasEvent α → List (CanvasAction α)
  | .created e => onSelectionCreated e
  | .updated e => onSelectionUpdated e
  | .cleared => onSelectionCleared clearSelectionCallBack

/-- Setup of the useCanvasEvents effect: when canvas is non-null it calls
canvas.on for the three selection events with the three handlers; when
canvas is null it attaches nothing. Each entry is an event name with the
handler attached for it. -/
def useCanvasEventsSetup {κ α : Type} (canvas : Option κ)
    (clearSelectionCallBack : Option Unit) :
    List (String × (SelectionEvent α → List (CanvasAction α))) :=
  match canvas with
  | some _ =>
      [("selection:created", fun e => onSelectionCreated e),
        ("selection:updated", fun e => onSelectionUpdated e),
        ("selection:cleared", fun _ => onSelectionCleared clearSelectionCallBack)]
  | none => []

/-- Cleanup of the useCanvasEvents effect: when canvas is non-null it calls
canvas.off for the three selection events; when canvas is null it detaches
nothing. -/
def useCanvasEventsCleanup {κ : Type} (canvas : Option κ) : List String :=
  match canvas with
  | some _ => ["selection:created", "selection:updated", "selection:cleared"]
  | none => []

/-- Outcome of one run of the debounced autosave body: the console.error
calls it made and the exception it let escape, if any. -/
structure AutosaveOutcome (ε : Type) where
  consoleErrors : List (String × ε)
  thrown : Option ε

deriving instance DecidableEq for AutosaveOutcome
deriving instance Repr for AutosaveOutcome

/-- Body of the debounced function in useAutosave: try awaiting
saveProject(projectId, data); on error, console.error the message and the
error, and raise nothing further. -/
def autosaveAttempt {π δ ε : Type} (saveProject : π → δ → Except ε Unit)
    (projectId : π) (data : δ) : AutosaveOutcome ε :=
  match saveProject projectId data with
  | .ok _ => { consoleErrors := [], thrown := none }
  | .error e => { consoleErrors := [("Autosave failed:", e)], thrown := none }

/-- A rendered React element, as far as ShapeTool's output is concerned:
a button with a click handler, class name and children, or an icon element
rendered with a class name. -/
inductive ReactNode (ι η : Type) where
  | button (onClick : η) (className : String) (children : List (ReactNode ι η))
  | iconNode (icon : ι) (className : String)

/-- Props of the ShapeTool component (the iconClassnane spelling is the
source's). -/
structure ShapeToolProps (ι η : Type) where
  icon : ι
  iconClassnane : Option String
  onClick : η

/-- Modelled from the spec: the cn helper imported from lib/utils is not in
the repository sources; per the spec's wording it merges class names, so it
is modelled as concatenating the base classes with the optional extra
classes. -/
def cn (base : String) (extra : Option String) : String :=
  match extra with
  | none => base
  | some s => base ++ " " ++ s

/-- The ShapeTool component: a pure function of its props returning one
button whose click handler is the onClick prop and whose only child is the
icon rendered with the merged class names. -/
def ShapeTool {ι η : Type} (props : ShapeToolProps ι η) : ReactNode ι η :=
  .button props.onClick ("aspect-square border rounded-md p-5")
    [.iconNode props.icon (cn ("h-full w-full") props.iconClassnane)]

lemma historyInv_initialState {σ : Type} : HistoryInv (initialState (σ := σ)) := by
  refine ⟨by norm_num [initialState], by norm_num [initialState], ?_⟩
  intro h
  simp [initialState] at h

lemma historyInv_pushState {σ : Type} (st : σ) (s : HistoryState σ) :
    HistoryInv (pushState st s) := by
  refine ⟨?_, ?_, ?_⟩ <;> (simp [pushState]; try omega)

lemma historyInv_undo {σ : Type} (s : HistoryState σ) (h : HistoryInv s) :
    HistoryInv (undo s).2 := by
  obtain ⟨h1, h2, h3⟩ := h
  by_cases hc : 0 < s.currentIndex
  · refine ⟨?_, ?_, ?_⟩ <;> simp [undo, hc] <;> omega
  · simpa [undo, hc] using ⟨h1, h2, h3⟩

lemma historyInv_redo {σ : Type} (s : HistoryState σ) (h : HistoryInv s) :
    HistoryInv (redo s).2 := by
  obtain ⟨h1, h2, h3⟩ := h
  by_cases hc : s.currentIndex < (s.history.length : Int) - 1
  · refine ⟨?_, ?_, ?_⟩ <;> simp [redo, hc] <;> omega
  · simpa [redo, hc] using ⟨h1, h2, h3⟩

lemma historyInv_applyOp {σ : Type} (s : HistoryState σ) (h : HistoryInv s)
    (op : HistoryOp σ) : HistoryInv (applyOp s op) := by
  cases op with
  | push st => exact historyInv_pushState st s
  | undoOp => exact historyInv_undo s h
  | redoOp => exact historyInv_redo s h

lemma historyInv_foldl {σ : Type} (ops : List (HistoryOp σ)) :
    ∀ s : HistoryState σ, HistoryInv s → HistoryInv (ops.foldl applyOp s) := by
  induction ops with
  | nil => intro s h; simpa using h
  | cons op rest ih =>
      intro s h
      simpa using ih (applyOp s op) (historyInv_applyOp s h op)

lemma historyInv_applyOps {σ : Type} (ops : List (HistoryOp σ)) :
    HistoryInv (applyOps ops) :=
  historyInv_foldl ops initialState historyInv_initialState

lemma historyInv_of_reachable {σ : Type} (s : HistoryState σ)
    (h : Reachable s) : HistoryInv s := by
  obtain ⟨ops, rfl⟩ := h
  exact historyInv_applyOps ops

/-- C1: for every history state with current index i > 0, undo decrements
the current index to i - 1 and returns history[i - 1], the entry preceding
the current one; the history array itself is unchanged. -/
theorem undo_decrements_and_returns_previous {σ : Type} (s : HistoryState σ)
    (hi : 0 < s.currentIndex) :
    (undo s).2.history = s.history ∧
    (undo s).2.currentIndex = s.currentIndex - 1 ∧
    (undo s).1 = s.history.get? (s.currentIndex - 1).toNat := by
  have hnn : ¬ s.currentIndex - 1 < 0 := by omega
  refine ⟨?_, ?_, ?_⟩ <;> simp [undo, hi, jsIndex, hnn]

/-- C1 witness: a concrete evaluation on the state with history [5, 6] and
current index 1. -/
theorem undo_decrements_and_returns_previous_witness :
    0 < (HistoryState.mk [5, 6] 1 : HistoryState Nat).currentIndex ∧
    ((undo (HistoryState.mk [5, 6] 1 : HistoryState Nat)).2.history = [5, 6] ∧
      (undo (HistoryState.mk [5, 6] 1 : HistoryState Nat)).2.currentIndex = 0 ∧
      (undo (HistoryState.mk [5, 6] 1 : HistoryState Nat)).1 =
        [5, 6].get? ((1 : Int) - 1).toNat) :=
  ⟨by decide, undo_decrements_and_returns_previous _ (by decide)⟩

/-- C2: on every reachable history state with current index i > 0, undo
followed by redo restores the state exactly (the index returns to i), and
redo returns the entry that was current before the undo; that entry is an
actual element of the history array. -/
theorem undo_redo_roundtrip {σ : Type} (s : HistoryState σ)
    (hr : Reachable s) (hi : 0 < s.currentIndex) :
    (redo (undo s).2).2 = s ∧
    (redo (undo s).2).1 = s.history.get? s.currentIndex.toNat ∧
    s.currentIndex.toNat < s.history.length := by
  obtain ⟨h1, h2, h3⟩ := historyInv_of_reachable s hr
  have hu : (undo s).2 = { s with currentIndex := s.currentIndex - 1 } := by
    simp [undo, hi]
  have hc : s.currentIndex - 1 < (s.history.length : Int) - 1 := by omega
  have hadd : s.currentIndex - 1 + 1 = s.currentIndex := by omega
  have hnn : ¬ s.currentIndex < 0 := by omega
  refine ⟨?_, ?_, by omega⟩ <;> rw [hu] <;>
    simp [redo, hc, jsIndex, hadd, hnn]

/-- C2 witness: the reachable state after pushing 0 then 1 has index 1;
undo followed by redo restores it and redo returns entry 1. -/
theorem undo_redo_roundtrip_witness :
    Reachable (HistoryState.mk [0, 1] 1 : HistoryState Nat) ∧
    0 < (HistoryState.mk [0, 1] 1 : HistoryState Nat).currentIndex ∧
    ((redo (undo (HistoryState.mk [0, 1] 1 : HistoryState Nat)).2).2 =
        HistoryState.mk [0, 1] 1 ∧
      (redo (undo (HistoryState.mk [0, 1] 1 : HistoryState Nat)).2).1 =
        [0, 1].get? (1 : Int).toNat ∧
      ((1 : Int)).toNat < [0, 1].length) :=
  ⟨⟨[HistoryOp.push 0, HistoryOp.push 1], by decide⟩, by decide,
    undo_redo_roundtrip _ ⟨[HistoryOp.push 0, HistoryOp.push 1], by decide⟩
      (by decide)⟩

/-- C3: for every history state with index i ≥ -1 (every state of the hook:
the index starts at -1 and never drops below it), pushState s replaces the
history by the slice of the old history up to and including position i with
s appended, and sets the current index to the last position of the new
array. -/
theorem pushState_truncates_and_appends {σ : Type} (st : σ)
    (s : HistoryState σ) (hi : -1 ≤ s.currentIndex) :
    (pushState st s).history =
      s.history.take (s.currentIndex + 1).toNat ++ [st] ∧
    (pushState st s).currentIndex =
      ((pushState st s).history.length : Int) - 1 := by
  have hnn : ¬ s.currentIndex + 1 < 0 := by omega
  refine ⟨?_, ?_⟩ <;> simp [pushState, jsSliceTo, hnn]

/-- C3 witness: pushing 9 onto the state with history [1, 2, 3] and index 0
discards the redo branch [2, 3] and yields [1, 9] with index 1. -/
theorem pushState_truncates_and_appends_witness :
    -1 ≤ (HistoryState.mk [1, 2, 3] 0 : HistoryState Nat).currentIndex ∧
    ((pushState 9 (HistoryState.mk [1, 2, 3] 0 : HistoryState Nat)).history =
        [1, 2, 3].take ((0 : Int) + 1).toNat ++ [9] ∧
      (pushState 9 (HistoryState.mk [1, 2, 3] 0 : HistoryState Nat)).currentIndex =
        (((pushState 9 (HistoryState.mk [1, 2, 3] 0 : HistoryState Nat)).history.length : Int)) - 1) :=
  ⟨by decide, pushState_truncates_and_appends 9 _ (by decide)⟩

/-- C8: starting from the initial state (empty history, index -1), every
finite sequence of pushState, undo and redo operations keeps the index
between -1 and history.length - 1, and keeps it nonnegative whenever the
history array is nonempty. -/
theorem history_index_invariant {σ : Type} (ops : List (HistoryOp σ)) :
    -1 ≤ (applyOps ops).currentIndex ∧
    (applyOps ops).currentIndex ≤ ((applyOps ops).history.length : Int) - 1 ∧
    ((applyOps ops).history ≠ [] → 0 ≤ (applyOps ops).currentIndex) :=
  historyInv_applyOps ops

/-- C9: undo and redo are no-ops at the boundaries: when the index is at
most 0, undo returns undefined and changes nothing; when the index is at
least history.length - 1, redo returns undefined and changes nothing. -/
theorem undo_redo_boundary_noop {σ : Type} (s : HistoryState σ) :
    (s.currentIndex ≤ 0 → undo s = (none, s)) ∧
    ((s.history.length : Int) - 1 ≤ s.currentIndex → redo s = (none, s)) := by
  constructor
  · intro h
    have hc : ¬ 0 < s.currentIndex := by omega
    simp [undo, hc]
  · intro h
    have hc : ¬ s.currentIndex < (s.history.length : Int) - 1 := by omega
    simp [redo, hc]

/-- C9 witness: on the state with history [7] and index 0, both undo and
redo return none and leave the state unchanged. -/
theorem undo_redo_boundary_noop_witness :
    ((HistoryState.mk [7] 0 : HistoryState Nat).currentIndex ≤ 0 ∧
      undo (HistoryState.mk [7] 0 : HistoryState Nat) =
        (none, HistoryState.mk [7] 0)) ∧
    ((([7].length : Int) - 1 ≤ (HistoryState.mk [7] 0 : HistoryState Nat).currentIndex) ∧
      redo (HistoryState.mk [7] 0 : HistoryState Nat) =
        (none, HistoryState.mk [7] 0)) :=
  ⟨⟨by decide, (undo_redo_boundary_noop (HistoryState.mk [7] 0)).1 (by decide)⟩,
    ⟨by decide, (undo_redo_boundary_noop (HistoryState.mk [7] 0)).2 (by decide)⟩⟩

/-- C4: the selection bridge keeps editor selection in sync: a
selection:created or selection:updated event with selected objects objs
leads to exactly one call, setSelectedObjects(objs); a selection:cleared
event leads to setSelectedObjects([]) followed by the
clearSelectionCallBack invocation when the callback was provided, and to
setSelectedObjects([]) alone when it was not. -/
theorem selection_bridge_sync {α : Type} (cb : Option Unit) (objs : List α) :
    handleCanvasEvent cb (.created ⟨.arr objs⟩) =
      [.setSelectedObjects (.arr objs)] ∧
    handleCanvasEvent cb (.updated ⟨.arr objs⟩) =
      [.setSelectedObjects (.arr objs)] ∧
    handleCanvasEvent (α := α) (some ()) .cleared =
      [.setSelectedObjects (.arr []), .clearSelectionCallBackCall] ∧
    handleCanvasEvent (α := α) none .cleared =
      [.setSelectedObjects (.arr [])] := by
  refine ⟨rfl, rfl, rfl, rfl⟩

/-- C5: with a non-null canvas the effect attaches handlers for exactly
the three selection events, in that order, and the cleanup detaches
exactly the same three; with a null canvas the effect attaches nothing and
the cleanup detaches nothing. -/
theorem effect_attaches_exactly_three_events {κ α : Type} (c : κ)
    (cb : Option Unit) :
    (useCanvasEventsSetup (α := α) (some c) cb).map Prod.fst =
      ["selection:created", "selection:updated", "selection:cleared"] ∧
    useCanvasEventsCleanup (some c) =
      ["selection:created", "selection:updated", "selection:cleared"] ∧
    useCanvasEventsCleanup (some c) =
      (useCanvasEventsSetup (α := α) (some c) cb).map Prod.fst ∧
    useCanvasEventsSetup (α := α) (none : Option κ) cb = [] ∧
    useCanvasEventsCleanup (none : Option κ) = [] := by
  refine ⟨rfl, rfl, rfl, rfl, rfl⟩

/-- C10: setSelectedObjects is never called with undefined: every
setSelectedObjects call any handler makes passes an actual array, and when
the selected field of a created or updated event is absent, the handler
substitutes the empty array. -/
theorem setSelectedObjects_never_undefined {α : Type} (cb : Option Unit)
    (ev : CanvasEvent α) :
    (∀ v : JsArrayVal α,
      CanvasAction.setSelectedObjects v ∈ handleCanvasEvent cb ev →
        v ≠ .undef) ∧
    handleCanvasEvent (α := α) cb (.created ⟨.undef⟩) =
      [.setSelectedObjects (.arr [])] ∧
    handleCanvasEvent (α := α) cb (.updated ⟨.undef⟩) =
      [.setSelectedObjects (.arr [])] := by
  refine ⟨?_, rfl, rfl⟩
  intro v hv
  cases ev with
  | created e =>
      obtain ⟨sel⟩ := e
      cases sel <;>
        simp [handleCanvasEvent, onSelectionCreated, jsOrEmptyArray] at hv <;>
        simp [hv]
  | updated e =>
      obtain ⟨sel⟩ := e
      cases sel <;>
        simp [handleCanvasEvent, onSelectionUpdated, jsOrEmptyArray] at hv <;>
        simp [hv]
  | cleared =>
      cases cb <;>
        simp [handleCanvasEvent, onSelectionCleared] at hv <;>
        simp [hv]

/-- C10 witness: on a created event with selected absent, the value passed
is the empty array, which is not undefined. -/
theorem setSelectedObjects_never_undefined_witness :
    (CanvasAction.setSelectedObjects (JsArrayVal.arr ([] : List Nat)) ∈
        handleCanvasEvent none (.created ⟨.undef⟩) ∧
      JsArrayVal.arr ([] : List Nat) ≠ .undef) ∧
    handleCanvasEvent (α := Nat) none (.created ⟨.undef⟩) =
      [.setSelectedObjects (.arr [])] :=
  ⟨⟨by decide,
      (setSelectedObjects_never_undefined none (.created ⟨.undef⟩)).1
        (JsArrayVal.arr []) (by decide)⟩,
    by decide⟩

/-- C6: when saveProject fails, the autosave body catches the error,
reports it with a single console.error call, and lets no exception escape;
no other action is taken. -/
theorem autosave_swallows_errors {π δ ε : Type}
    (saveProject : π → δ → Except ε Unit) (projectId : π) (data : δ)
    (e : ε) (hfail : saveProject projectId data = .error e) :
    autosaveAttempt saveProject projectId data =
      { consoleErrors := [("Autosave failed:", e)], thrown := none } := by
  simp [autosaveAttempt, hfail]

/-- C6 witness: a concrete failing saveProject is logged to the console
and nothing escapes. -/
theorem autosave_swallows_errors_witness :
    (fun (_ : Unit) (_ : Unit) => (Except.error "boom" : Except String Unit))
        () () = .error "boom" ∧
    autosaveAttempt
        (fun (_ : Unit) (_ : Unit) => (Except.error "boom" : Except String Unit))
        () () =
      { consoleErrors := [("Autosave failed:", "boom")], thrown := none } :=
  ⟨rfl, autosave_swallows_errors _ () () "boom" rfl⟩

/-- C7: ShapeTool is a pure function of its props: renders with equal
props are identical, and every render is a single button whose click
handler is exactly the onClick prop and whose only child is the icon with
the merged class names. -/
theorem shapeTool_pure_structure {ι η : Type} (p q : ShapeToolProps ι η)
    (hpq : p = q) :
    ShapeTool p = ShapeTool q ∧
    ShapeTool p =
      .button p.onClick ("aspect-square border rounded-md p-5")
        [.iconNode p.icon (cn ("h-full w-full") p.iconClassnane)] :=
  ⟨congrArg ShapeTool hpq, rfl⟩

/-- C7 witness: two renders with the same concrete props coincide and have
the stated button structure. -/
theorem shapeTool_pure_structure_witness :
    (ShapeToolProps.mk (0 : Nat) (some ("extra")) (7 : Nat)) =
      (ShapeToolProps.mk (0 : Nat) (some ("extra")) (7 : Nat)) ∧
    (ShapeTool (ShapeToolProps.mk (0 : Nat) (some ("extra")) (7 : Nat)) =
        ShapeTool (ShapeToolProps.mk (0 : Nat) (some ("extra")) (7 : Nat)) ∧
      ShapeTool (ShapeToolProps.mk (0 : Nat) (some ("extra")) (7 : Nat)) =
        .button 7 ("aspect-square border rounded-md p-5")
          [.iconNode 0 (cn ("h-full w-full") (some ("extra")))]) :=
  ⟨rfl, shapeTool_pure_structure _ _ rfl⟩

end ImageAI
